import Mathlib

/-!
Verification of the fcomm functional-commitment CLI (alvin-reyes/lurk-rs).

The repository ships three source files: the fcomm binary
(src/fcomm/src/bin/fcomm.rs), the lurk crate root (src/src/lib.rs) and the
lurk CLI (src/cli/src/main.rs).  The lurk store/evaluator and the fcomm
library (Commitment, Opening, Proof, evaluate) are declared but their
bodies are not part of the shipped sources, so those layers are modelled
from the specification; the command dispatch logic of fcomm.rs is embedded
directly.
-/

namespace Lurk

/-! ## Terms

Surface-syntax parsing is an external collaborator, so symbols are interned
by numeric id; the ids of the special-form symbols are fixed here. -/

def quoteSym : Nat := 0

def lambdaSym : Nat := 1

def ifSym : Nat := 2

def plusSym : Nat := 3

/-- Modelled from the spec: the term tags of the data model (§3) — Nil,
Symbol, Number, Function (parameter, body, captured environment) and Pair.
Environments are themselves terms: association lists of (symbol . value)
pairs built from `cons` cells, as the lexical chain of §3. -/
inductive Expr where
  | nil : Expr
  | sym : Nat → Expr
  | num : Nat → Expr
  | fn : Nat → Expr → Expr → Expr
  | cons : Expr → Expr → Expr
deriving DecidableEq, Repr

/-- Modelled from the spec: the structural hash of a term (§4.1 `hash(p)`),
the universal address domain.  Constructors are separated by tags through
the injective `Nat.pair`, so structurally identical terms always receive
the same address and distinct terms distinct addresses (the spec's ideal,
collision-free hash). -/
def hashExpr : Expr → Nat
  | Expr.nil => Nat.pair 0 0
  | Expr.sym n => Nat.pair 1 n
  | Expr.num n => Nat.pair 2 n
  | Expr.fn p b e => Nat.pair 3 (Nat.pair p (Nat.pair (hashExpr b) (hashExpr e)))
  | Expr.cons a b => Nat.pair 4 (Nat.pair (hashExpr a) (hashExpr b))

theorem hashExpr_injective : ∀ a b : Expr, hashExpr a = hashExpr b → a = b := by
  intro a
  induction a with
  | nil =>
    intro b h
    cases b <;> simp_all [hashExpr, Nat.pair_eq_pair]
  | sym n =>
    intro b h
    cases b <;> simp [hashExpr, Nat.pair_eq_pair] at h
    simp [h]
  | num n =>
    intro b h
    cases b <;> simp [hashExpr, Nat.pair_eq_pair] at h
    simp [h]
  | fn p bd en ihb ihe =>
    intro b h
    cases b <;> simp [hashExpr, Nat.pair_eq_pair] at h
    obtain ⟨hp, hb, he⟩ := h
    simp [hp, ihb _ hb, ihe _ he]
  | cons x y ihx ihy =>
    intro b h
    cases b <;> simp [hashExpr, Nat.pair_eq_pair] at h
    obtain ⟨hx, hy⟩ := h
    simp [ihx _ hx, ihy _ hy]

/-! ## Store

Modelled from the spec (§3, §4.1): an append-only table from structural
hashes to term payloads.  Interning computes the structural hash and grows
the table only when the term is new. -/

abbrev Store := List (Nat × Expr)

/-- Modelled from the spec: interning a term into the store (§4.1). The
address is the structural hash; the table grows (append-only) only when
the address is not yet present. -/
def intern (s : Store) (t : Expr) : Store × Nat :=
  if s.any (fun p => p.1 = hashExpr t) then (s, hashExpr t)
  else (s ++ [(hashExpr t, t)], hashExpr t)

theorem intern_addr (s : Store) (t : Expr) : (intern s t).2 = hashExpr t := by
  unfold intern
  split <;> rfl

theorem intern_mem (s : Store) (t : Expr) :
    ((intern s t).1.any (fun p => p.1 = hashExpr t)) = true := by
  unfold intern
  split
  · next h => simpa using h
  · simp

/-! ## Evaluator machine

Modelled from the spec (§4.2): a total, pure transition function over
(expression, environment, continuation) triples covering variable lookup,
application, arithmetic dispatch, conditional branching and quoting;
program-level errors move to the Errored continuation. -/

/-- Modelled from the spec: continuation variants — one per pending
evaluation context, plus the initial `outermost` marker and the two
terminal markers Done and Errored (§3). -/
inductive Cont where
  | outermost : Cont
  | done : Cont
  | errored : Cont
  | appArg : Expr → Expr → Cont → Cont
  | appFun : Expr → Cont → Cont
  | binopLeft : Expr → Expr → Cont → Cont
  | binopRight : Nat → Cont → Cont
  | ifCond : Expr → Expr → Expr → Cont → Cont
deriving DecidableEq, Repr

/-- The IO record of the spec (§3): an (expression, environment,
continuation) machine-state snapshot. -/
structure IORecord where
  expr : Expr
  env : Expr
  cont : Cont
deriving DecidableEq, Repr

def Cont.isTerminal : Cont → Bool
  | Cont.done => true
  | Cont.errored => true
  | _ => false

/-- Lexical lookup in a cons-cell association-list environment. -/
def lookup : Expr → Nat → Option Expr
  | Expr.cons (Expr.cons (Expr.sym s) v) rest, x =>
    if s = x then some v else lookup rest x
  | _, _ => none

def errState (e : Expr) : IORecord := ⟨e, Expr.nil, Cont.errored⟩

/-- Deliver an evaluated value to the pending continuation. -/
def retCont (v : Expr) : Cont → IORecord
  | Cont.outermost => ⟨v, Expr.nil, Cont.done⟩
  | Cont.done => ⟨v, Expr.nil, Cont.done⟩
  | Cont.errored => ⟨v, Expr.nil, Cont.errored⟩
  | Cont.appArg argE env k => ⟨argE, env, Cont.appFun v k⟩
  | Cont.appFun fv k =>
    match fv with
    | Expr.fn p body cenv => ⟨body, Expr.cons (Expr.cons (Expr.sym p) v) cenv, k⟩
    | _ => errState v
  | Cont.binopLeft rightE env k =>
    match v with
    | Expr.num n => ⟨rightE, env, Cont.binopRight n k⟩
    | _ => errState v
  | Cont.binopRight n k =>
    match v with
    | Expr.num m => ⟨Expr.num (n + m), Expr.nil, k⟩
    | _ => errState v
  | Cont.ifCond thenE elseE env k =>
    if v = Expr.nil then ⟨elseE, env, k⟩ else ⟨thenE, env, k⟩

/-- Modelled from the spec: one evaluation transition (§4.2 `step`), a
total pure function; Done and Errored states step to themselves (the
identity no-op padding of §4.3). -/
def step (s : IORecord) : IORecord :=
  match s.cont with
  | Cont.done => s
  | Cont.errored => s
  | k =>
    match s.expr with
    | Expr.nil => retCont Expr.nil k
    | Expr.num n => retCont (Expr.num n) k
    | Expr.fn p b e => retCont (Expr.fn p b e) k
    | Expr.sym x =>
      match lookup s.env x with
      | some v => retCont v k
      | none => errState s.expr
    | Expr.cons head rest =>
      if head = Expr.sym quoteSym then
        match rest with
        | Expr.cons q Expr.nil => retCont q k
        | _ => errState s.expr
      else if head = Expr.sym lambdaSym then
        match rest with
        | Expr.cons (Expr.sym p) (Expr.cons body Expr.nil) => retCont (Expr.fn p body s.env) k
        | _ => errState s.expr
      else if head = Expr.sym ifSym then
        match rest with
        | Expr.cons c (Expr.cons t (Expr.cons e Expr.nil)) => ⟨c, s.env, Cont.ifCond t e s.env k⟩
        | _ => errState s.expr
      else if head = Expr.sym plusSym then
        match rest with
        | Expr.cons a (Expr.cons b Expr.nil) => ⟨a, s.env, Cont.binopLeft b s.env k⟩
        | _ => errState s.expr
      else
        match rest with
        | Expr.cons a Expr.nil => ⟨head, s.env, Cont.appArg a s.env k⟩
        | _ => errState s.expr

def initial (e : Expr) : IORecord := ⟨e, Expr.nil, Cont.outermost⟩

/-- Modelled from the spec: the bounded work loop of `evaluate` (§4.2) —
repeatedly apply `step` until the continuation is Done or Errored or the
step budget is exhausted, returning the IO record reached either way
together with the steps actually used. -/
def evalIter (s : IORecord) : Nat → IORecord × Nat
  | 0 => (s, 0)
  | Nat.succ n =>
    if s.cont.isTerminal then (s, 0)
    else
      let r := evalIter (step s) n
      (r.1, r.2 + 1)

/-- Modelled from the spec: `evaluate(store, expr, limit)` (§4.2), starting
from (expr, empty environment, initial pending continuation). -/
def evaluate (e : Expr) (limit : Nat) : IORecord × Nat :=
  evalIter (initial e) limit

theorem step_terminal (s : IORecord) (h : s.cont.isTerminal = true) : step s = s := by
  unfold step
  rcases s with ⟨e, env, c⟩
  cases c <;> simp_all [Cont.isTerminal]

theorem evalIter_terminal (s : IORecord) (h : s.cont.isTerminal = true) :
    ∀ n, evalIter s n = (s, 0) := by
  intro n
  cases n with
  | zero => rfl
  | succ m => simp [evalIter, h]

theorem evalIter_mono :
    ∀ (n : Nat) (s s' : IORecord) (k : Nat), evalIter s n = (s', k) →
      s'.cont.isTerminal = true → ∀ m, k ≤ m → evalIter s m = (s', k) := by
  intro n
  induction n with
  | zero =>
    intro s s' k h hterm m _
    simp [evalIter] at h
    obtain ⟨rfl, rfl⟩ := h
    exact evalIter_terminal s hterm m
  | succ n ih =>
    intro s s' k h hterm m hm
    by_cases hs : s.cont.isTerminal = true
    · simp [evalIter, hs] at h
      obtain ⟨rfl, rfl⟩ := h
      exact evalIter_terminal s hs m
    · simp [evalIter, hs] at h
      obtain ⟨s₁, k₁, hrec⟩ : ∃ s₁ k₁, evalIter (step s) n = (s₁, k₁) := ⟨_, _, rfl⟩
      rw [hrec] at h
      obtain ⟨rfl, rfl⟩ := h
      obtain ⟨m₀, rfl⟩ : ∃ m₀, m = m₀ + 1 := ⟨m - 1, by omega⟩
      have := ih (step s) s₁ k₁ hrec hterm m₀ (by omega)
      simp [evalIter, hs, this]

/-- Iterated transition (used for the padded witness trace of §4.3). -/
def stepN (s : IORecord) : Nat → IORecord
  | 0 => s
  | Nat.succ n => stepN (step s) n

/-- Modelled from the spec: the padded witness trace of §4.3 — the list of
the first `n + 1` machine states; since Done/Errored step to themselves,
states after termination are identity no-op padding. -/
def traceN (s : IORecord) : Nat → List IORecord
  | 0 => [s]
  | Nat.succ n => s :: traceN (step s) n

theorem stepN_terminal (s : IORecord) (h : s.cont.isTerminal = true) :
    ∀ n, stepN s n = s := by
  intro n
  induction n generalizing s with
  | zero => rfl
  | succ n ih => rw [stepN, step_terminal s h, ih s h]

theorem evalIter_fst : ∀ (n : Nat) (s : IORecord), (evalIter s n).1 = stepN s n := by
  intro n
  induction n with
  | zero => intro s; rfl
  | succ n ih =>
    intro s
    by_cases hs : s.cont.isTerminal = true
    · rw [evalIter_terminal s hs, stepN, step_terminal s hs, stepN_terminal s hs]
    · simp [evalIter, hs, stepN, ih]

theorem traceN_length (s : IORecord) : ∀ n, (traceN s n).length = n + 1 := by
  intro n
  induction n generalizing s with
  | zero => rfl
  | succ n ih => simp [traceN, ih]

theorem traceN_head (s : IORecord) (n : Nat) : (traceN s n).head? = some s := by
  cases n <;> rfl

theorem traceN_getLast (s : IORecord) :
    ∀ n, (traceN s n).getLast? = some (stepN s n) := by
  intro n
  induction n generalizing s with
  | zero => rfl
  | succ n ih =>
    cases n with
    | zero => rfl
    | succ m =>
      show (s :: traceN (step s) (m + 1)).getLast? = _
      have h1 : traceN (step s) (m + 1) = step s :: traceN (step (step s)) m := rfl
      rw [h1, List.getLast?_cons_cons, ← h1, ih (step s)]
      simp [stepN]

/-- One-transition links of a candidate witness trace: every adjacent pair
must conform to `step`. -/
def chainOk : List IORecord → Bool
  | a :: b :: rest => decide (step a = b) && chainOk (b :: rest)
  | _ => true

theorem chainOk_traceN (s : IORecord) : ∀ n, chainOk (traceN s n) = true := by
  intro n
  induction n generalizing s with
  | zero => rfl
  | succ n ih =>
    cases n with
    | zero => simp [traceN, chainOk]
    | succ m =>
      show chainOk (s :: step s :: traceN (step (step s)) m) = true
      have := ih (step s)
      simp only [traceN] at this
      simp [chainOk, this]

/-- The error taxonomy of the spec (§7) relevant to the embedded layers;
`ioError` stands for the external persistence collaborator's failures. -/
inductive Error where
  | commitmentMismatch : Error
  | evaluationIncomplete : Error
  | typeError : Error
  | proofSynthesisError : Error
  | ioError : Error
deriving DecidableEq, Repr

/-! ## Proof system

Modelled from the spec (§4.3): the relation R(public; witness) holds iff
the witness is a sequence of exactly L transitions, each conforming to
`step`, from the public input state to the public output state.  The
pairing-based SNARK backend is a trusted subroutine (out of scope), so a
proof artifact is modelled ideally: it carries its public inputs and the
witness trace, and the verifier checks the relation R directly. -/

/-- Decidable check of the circuit relation R(public; witness) of §4.3. -/
def validTrace (pubIn pubOut : IORecord) (limit : Nat) (w : List IORecord) : Bool :=
  (w.length == limit + 1) && (w.head? == some pubIn)
    && (w.getLast? == some pubOut) && chainOk w

/-- Modelled from the spec: the proof artifact, verifiable against the
public inputs {input state, output state, limit} (§3, §4.3); the embedded
trace models the witness certified by the trusted SNARK backend. -/
structure Proof where
  pubIn : IORecord
  pubOut : IORecord
  limit : Nat
  witness : List IORecord
deriving DecidableEq, Repr

/-- Modelled from the spec: build the proof of an evaluation — run the
evaluator, pad the trace to exactly `limit` transitions, package the
public inputs (§4.3). -/
def proveOf (s : IORecord) (limit : Nat) : Proof :=
  ⟨s, (evalIter s limit).1, limit, traceN s limit⟩

/-- Modelled from the spec: `verify(proof, publicInputs)` (§4.3) —
recompute the expected public values and check the relation; no witness
beyond the proof artifact is required, and failure is a boolean result. -/
def verifyPub (p : Proof) (pubIn pubOut : IORecord) (limit : Nat) : Bool :=
  decide (p.pubIn = pubIn) && decide (p.pubOut = pubOut)
    && (p.limit == limit) && validTrace pubIn pubOut limit p.witness

theorem proveOf_valid (s : IORecord) (limit : Nat) :
    verifyPub (proveOf s limit) s (evalIter s limit).1 limit = true := by
  simp [verifyPub, proveOf, validTrace, traceN_length, traceN_head,
    traceN_getLast, chainOk_traceN, evalIter_fst]

/-- Modelled from the spec: `Proof::eval_and_prove` — evaluate the
expression and prove the reached trace; it succeeds for whatever IO record
is reached at or before the limit (§4.3). -/
def eval_and_prove (e : Expr) (limit : Nat) : Except Error Proof :=
  Except.ok (proveOf (initial e) limit)

/-! ## Commitment scheme

Modelled from the spec (§3, §4.4): a commitment is hash(function address)
when transparent, hash(function address, secret) when hiding.  The two
cases are tag-separated through `Nat.pair`, matching the spec's demand
that collisions be infeasible (an ideal hash). -/

/-- Modelled from the spec: `Commitment::from_ptr_and_secret` (fcomm
library, not under src/) — the hiding commitment hash(function address,
secret). -/
def fromPtrAndSecret (f : Expr) (secret : Nat) : Nat :=
  Nat.pair 1 (Nat.pair (hashExpr f) secret)

/-- Modelled from the spec's words for `commit(store, functionAddr,
secret?)` (§4.4): `secret = none` gives the transparent commitment
hash(functionAddr), `secret = some s` the hiding commitment
hash(functionAddr, s).  This is the spec-side definition used for the
refinement comparison of C1 and for the recomputation step of `open`. -/
def commitSpec (f : Expr) (secret : Option Nat) : Nat :=
  match secret with
  | none => Nat.pair 0 (hashExpr f)
  | some s => fromPtrAndSecret f s

/-- Modelled from the spec: `Commitment::from_ptr_with_hiding` (fcomm
library, not under src/) — samples a fresh secret (randomness is modelled
by passing the sampled value explicitly), forms the hiding commitment and
returns it together with the generated secret, which the caller persists
(§4.4: "Persisting (function, secret) for later disclosure is the
committer's responsibility"). -/
def fromPtrWithHiding (f : Expr) (freshSecret : Nat) : Nat × Nat :=
  (fromPtrAndSecret f freshSecret, freshSecret)

theorem commitSpec_injective (f g : Expr) (o p : Option Nat)
    (h : commitSpec f o = commitSpec g p) : f = g ∧ o = p := by
  cases o <;> cases p <;>
    simp [commitSpec, fromPtrAndSecret, Nat.pair_eq_pair] at h ⊢
  · exact hashExpr_injective _ _ h
  · obtain ⟨h1, h2⟩ := h
    exact ⟨hashExpr_injective _ _ h1, h2⟩

/-- The on-disk Function record (spec §6): the source term plus an
optional secret.  `fun_ptr` evaluates the source under the limit to obtain
the function value, as `Function::fun_ptr` does. -/
structure Function where
  source : Expr
  secret : Option Nat
deriving DecidableEq, Repr

def Function.fun_ptr (fn : Function) (limit : Nat) : Expr :=
  ((evaluate fn.source limit).1).expr

/-- `Commit::commit` (src/fcomm/src/bin/fcomm.rs lines 126-145): with a
stored secret, commit with it; with no stored secret, call
`from_ptr_with_hiding`, store the generated secret back into the function
record, and use the resulting hiding commitment.  Returns the commitment
together with the function record as written back. -/
def commit (fn : Function) (limit : Nat) (freshSecret : Nat) : Nat × Function :=
  let fp := fn.fun_ptr limit
  match fn.secret with
  | some secret => (fromPtrAndSecret fp secret, fn)
  | none =>
    let cs := fromPtrWithHiding fp freshSecret
    (cs.1, { fn with secret := some cs.2 })

/-! ## Opening protocol -/

/-- The application expression "(function applied to input)" of §4.4. -/
def applyExpr (f input : Expr) : Expr := Expr.cons f (Expr.cons input Expr.nil)

/-- The Opening record of the spec (§3): commitment, disclosed input and
output, step limit, optional successor commitment. -/
structure Opening where
  commitment : Nat
  input : Expr
  output : Expr
  limit : Nat
  chained : Option Nat
deriving DecidableEq, Repr

/-- Modelled from the spec: `Opening::create_and_prove` /
`open(store, commitment, function, secret?, input, limit, chain?)` (§4.4):
1. recompute the commitment from (function, secret) and fail
   CommitmentMismatch if it differs from the claimed one;
2. evaluate (function applied to input) under the limit and fail
   EvaluationIncomplete if the final continuation is not Done;
3. build the evaluation proof;
4. when chaining, require the output to encode (result, newFunction,
   newSecret) and embed the successor commitment in the opening. -/
def openAndProve (claimed : Nat) (f : Expr) (secret : Option Nat) (input : Expr)
    (limit : Nat) (chain : Bool) : Except Error (Opening × Proof) :=
  if commitSpec f secret ≠ claimed then Except.error Error.commitmentMismatch
  else if ((evaluate (applyExpr f input) limit).1).cont = Cont.done then
    if chain then
      match ((evaluate (applyExpr f input) limit).1).expr with
      | Expr.cons _result (Expr.cons newFn (Expr.cons (Expr.num newSecret) Expr.nil)) =>
        Except.ok (⟨claimed, input, ((evaluate (applyExpr f input) limit).1).expr, limit,
          some (commitSpec newFn (some newSecret))⟩,
          proveOf (initial (applyExpr f input)) limit)
      | _ => Except.error Error.typeError
    else
      Except.ok (⟨claimed, input, ((evaluate (applyExpr f input) limit).1).expr, limit, none⟩,
        proveOf (initial (applyExpr f input)) limit)
  else Except.error Error.evaluationIncomplete

/-! ## CLI command layer (src/fcomm/src/bin/fcomm.rs)

Path reading and parsing belong to external collaborators, so a "path" is
modelled as the parsed source term it holds. -/

/-- `read_no_eval_from_path` (fcomm.rs lines 255-264): wrap the parsed
source in `(quote ...)` — `store.list(&[quote, src])` — and return it with
the source. -/
def read_no_eval (src : Expr) : Expr × Expr :=
  (Expr.cons (Expr.sym quoteSym) (Expr.cons src Expr.nil), src)

/-- `read_eval_from_path` (fcomm.rs lines 237-253): evaluate the parsed
source under the limit and return the reached expression with the
source. -/
def read_eval (src : Expr) (limit : Nat) : Expr × Expr :=
  (((evaluate src limit).1).expr, src)

/-- `input` (fcomm.rs lines 297-308): with the no_eval_input flag the
quoted source, otherwise the evaluated source. -/
def input (src : Expr) (no_eval_input : Bool) (limit : Nat) : Expr :=
  if no_eval_input then (read_no_eval src).1 else (read_eval src limit).1

/-- `Open::open` (fcomm.rs lines 148-175): compute the input according to
the no_eval_input flag, then create and prove the opening against the
claimed commitment (recomputed from the function record when no commitment
artifact is supplied). -/
def openCmd (fn : Function) (inputSrc : Expr) (commitment : Option Nat)
    (chain : Bool) (limit : Nat) (no_eval_input : Bool) :
    Except Error (Opening × Proof) :=
  let inp := input inputSrc no_eval_input limit
  let claimed := commitment.getD (commitSpec (fn.fun_ptr limit) fn.secret)
  openAndProve claimed (fn.fun_ptr limit) fn.secret inp limit chain

/-- `Eval::eval` (fcomm.rs lines 177-189): evaluate the parsed expression
and report the reached IO record and iteration count, whatever they are;
no termination requirement. -/
def evalCmd (e : Expr) (limit : Nat) : Except Error (IORecord × Nat) :=
  Except.ok (evaluate e limit)

/-- The structured verification outcome (spec §6): `{verified: bool}`. -/
structure VerificationResult where
  verified : Bool
deriving DecidableEq, Repr

/-- Modelled from the spec: `verify(opening)` (§4.4) — re-derive the
public inputs from the proof artifact's disclosed fields and run the
Proof System's verifier, returning `{verified: bool}`. -/
def Proof.verify (p : Proof) : VerificationResult :=
  ⟨verifyPub p p.pubIn p.pubOut p.limit⟩

/-- Process outcome of a CLI command. -/
inductive ExitStatus where
  | success : ExitStatus
  | failure : Nat → ExitStatus
deriving DecidableEq, Repr

/-- `Verify::verify` (fcomm.rs lines 207-222): write the structured result
to stdout, then exit with code 1 only when verification failed and the
--error flag is set; otherwise return successfully.  The returned pair is
(result as reported, process outcome). -/
def verifyCmd (p : Proof) (cli_error : Bool) : VerificationResult × ExitStatus :=
  let result := p.verify
  (result,
    if result.verified then ExitStatus.success
    else if cli_error then ExitStatus.failure 1
    else ExitStatus.success)

instance exceptDecidableEq {ε α : Type} [DecidableEq ε] [DecidableEq α] :
    DecidableEq (Except ε α) := fun x y =>
  match x, y with
  | Except.ok a, Except.ok b =>
    if h : a = b then isTrue (by rw [h]) else isFalse (fun he => h (Except.ok.inj he))
  | Except.error a, Except.error b =>
    if h : a = b then isTrue (by rw [h]) else isFalse (fun he => h (Except.error.inj he))
  | Except.ok _, Except.error _ => isFalse (fun he => Except.noConfusion he)
  | Except.error _, Except.ok _ => isFalse (fun he => Except.noConfusion he)

/-! ## Shared lemmas about the opening protocol -/

theorem openAndProve_mismatch (c : Nat) (f : Expr) (secret : Option Nat)
    (inp : Expr) (limit : Nat) (chain : Bool) (h : commitSpec f secret ≠ c) :
    openAndProve c f secret inp limit chain = Except.error Error.commitmentMismatch := by
  simp [openAndProve, h]

theorem openAndProve_incomplete (c : Nat) (f : Expr) (secret : Option Nat)
    (inp : Expr) (limit : Nat) (chain : Bool) (hc : commitSpec f secret = c)
    (h : ((evaluate (applyExpr f inp) limit).1).cont ≠ Cont.done) :
    openAndProve c f secret inp limit chain = Except.error Error.evaluationIncomplete := by
  simp [openAndProve, hc, h]

theorem openAndProve_ok_proof (c : Nat) (f : Expr) (secret : Option Nat)
    (inp : Expr) (limit : Nat) (chain : Bool) (o : Opening) (p : Proof)
    (h : openAndProve c f secret inp limit chain = Except.ok (o, p)) :
    p = proveOf (initial (applyExpr f inp)) limit := by
  unfold openAndProve at h
  repeat' split at h
  all_goals first
    | (injection h with h1; exact (congrArg Prod.snd h1).symm)
    | injection h

end Lurk

namespace Lurk

/-! ## Claims -/

/-- C1, counterexample: committing the identity function with no stored
secret does not return the transparent commitment hash(functionAddr) — the
code calls `from_ptr_with_hiding` and produces a hiding commitment under a
freshly generated secret instead. -/
theorem c1_commit_transparent_counterexample :
    (commit ⟨Expr.cons (Expr.sym lambdaSym)
        (Expr.cons (Expr.sym 9) (Expr.cons (Expr.sym 9) Expr.nil)), none⟩ 10 7).1
      ≠ commitSpec
          (Function.fun_ptr
            ⟨Expr.cons (Expr.sym lambdaSym)
              (Expr.cons (Expr.sym 9) (Expr.cons (Expr.sym 9) Expr.nil)), none⟩ 10)
          none := by
  decide

/-- C1 (amended): with `secret = some s` commit returns the hiding
commitment hash(functionAddr, s); with `secret = none` it generates a
fresh secret, returns the hiding commitment hash(functionAddr, fresh) and
persists the fresh secret in the function record — no transparent
commitment is ever produced. -/
theorem c1_commit_dispatch :
    ∀ (src : Expr) (limit fresh s : Nat),
      (commit ⟨src, some s⟩ limit fresh).1
          = commitSpec (Function.fun_ptr ⟨src, some s⟩ limit) (some s)
      ∧ (commit ⟨src, none⟩ limit fresh).1
          = commitSpec (Function.fun_ptr ⟨src, none⟩ limit) (some fresh)
      ∧ ((commit ⟨src, none⟩ limit fresh).2).secret = some fresh := by
  intro src limit fresh s
  exact ⟨rfl, rfl, rfl⟩

/-- C2: opening a commitment with the matching function and secret
succeeds iff evaluating (function applied to input) reaches the Done
continuation within the step limit; otherwise it fails with
EvaluationIncomplete. -/
theorem c2_opening_correctness :
    ∀ (f : Expr) (secret : Option Nat) (inp : Expr) (limit : Nat),
      ((openAndProve (commitSpec f secret) f secret inp limit false).isOk = true
        ↔ ((evaluate (applyExpr f inp) limit).1).cont = Cont.done)
      ∧ (((evaluate (applyExpr f inp) limit).1).cont ≠ Cont.done →
          openAndProve (commitSpec f secret) f secret inp limit false
            = Except.error Error.evaluationIncomplete) := by
  intro f secret inp limit
  constructor
  · by_cases h : ((evaluate (applyExpr f inp) limit).1).cont = Cont.done <;>
      simp [openAndProve, h, Except.isOk, Except.toBool]
  · exact openAndProve_incomplete _ f secret inp limit false rfl

/-- C2 witness: with step limit 0 the application cannot reach Done, and
the opening fails with EvaluationIncomplete. -/
theorem c2_opening_correctness_witness :
    ((evaluate (applyExpr (Expr.num 1) (Expr.num 5)) 0).1).cont ≠ Cont.done
    ∧ openAndProve (commitSpec (Expr.num 1) none) (Expr.num 1) none (Expr.num 5) 0 false
        = Except.error Error.evaluationIncomplete :=
  ⟨by decide,
   (c2_opening_correctness (Expr.num 1) none (Expr.num 5) 0).2 (by decide)⟩

/-- C3: opening checks the recomputed commitment first and fails with
CommitmentMismatch whenever it differs from the claimed one; in
particular, perturbing the disclosed function or secret away from the
committed pair yields CommitmentMismatch. -/
theorem c3_opening_soundness :
    ∀ (c : Nat) (f : Expr) (secret : Option Nat) (f₀ : Expr) (s₀ : Option Nat)
      (inp : Expr) (limit : Nat) (chain : Bool),
      (commitSpec f secret ≠ c →
        openAndProve c f secret inp limit chain
          = Except.error Error.commitmentMismatch)
      ∧ ((f, secret) ≠ (f₀, s₀) →
          openAndProve (commitSpec f₀ s₀) f secret inp limit chain
            = Except.error Error.commitmentMismatch) := by
  intro c f secret f₀ s₀ inp limit chain
  constructor
  · exact openAndProve_mismatch c f secret inp limit chain
  · intro hne
    refine openAndProve_mismatch _ f secret inp limit chain (fun he => hne ?_)
    obtain ⟨h1, h2⟩ := commitSpec_injective f f₀ secret s₀ he
    rw [h1, h2]

/-- C3 witness: a wrong claimed commitment and a perturbed function both
fail with CommitmentMismatch at concrete inputs. -/
theorem c3_opening_soundness_witness :
    (commitSpec (Expr.num 1) none ≠ 0
      ∧ openAndProve 0 (Expr.num 1) none (Expr.num 5) 10 false
          = Except.error Error.commitmentMismatch)
    ∧ (((Expr.num 1 : Expr), (none : Option Nat)) ≠ (Expr.num 2, none)
      ∧ openAndProve (commitSpec (Expr.num 2) none) (Expr.num 1) none (Expr.num 5) 10 false
          = Except.error Error.commitmentMismatch) :=
  ⟨⟨by decide,
    (c3_opening_soundness 0 (Expr.num 1) none (Expr.num 2) none (Expr.num 5) 10 false).1
      (by decide)⟩,
   ⟨by decide,
    (c3_opening_soundness 0 (Expr.num 1) none (Expr.num 2) none (Expr.num 5) 10 false).2
      (by decide)⟩⟩

/-- C4: evaluation is deterministic — two calls of `evaluate` on identical
(expression, limit) inputs yield identical (IO record, stepsUsed) results;
the transition loop is a pure function with no hidden randomness or
input/output effects. -/
theorem c4_evaluate_deterministic :
    ∀ (e : Expr) (limit : Nat) (r₁ r₂ : IORecord × Nat),
      evaluate e limit = r₁ → evaluate e limit = r₂ → r₁ = r₂ := by
  intro e limit r₁ r₂ h1 h2
  rw [← h1, ← h2]

/-- C4 witness: two calls at a concrete input agree. -/
theorem c4_evaluate_deterministic_witness :
    evaluate (Expr.num 3) 5 = (⟨Expr.num 3, Expr.nil, Cont.done⟩, 1)
    ∧ ((⟨Expr.num 3, Expr.nil, Cont.done⟩ : IORecord), 1)
        = ((⟨Expr.num 3, Expr.nil, Cont.done⟩ : IORecord), 1) :=
  ⟨by decide,
   c4_evaluate_deterministic (Expr.num 3) 5 _ _ (by decide) (by decide)⟩

/-- C5: evaluation is monotone in the step limit — if `evaluate e L₁`
terminates with the Done continuation using `stepsUsed = k`, then for
every `L₂ ≥ k`, `evaluate e L₂` yields the same IO record and the same
`stepsUsed = k`. -/
theorem c5_evaluate_monotone :
    ∀ (e : Expr) (L₁ L₂ : Nat),
      ((evaluate e L₁).1).cont = Cont.done → (evaluate e L₁).2 ≤ L₂ →
      evaluate e L₂ = evaluate e L₁ := by
  intro e L₁ L₂ hdone hle
  obtain ⟨s', k, h⟩ : ∃ s' k, evalIter (initial e) L₁ = (s', k) := ⟨_, _, rfl⟩
  have hs' : (evaluate e L₁).1 = s' := by simp [evaluate, h]
  have hterm : s'.cont.isTerminal = true := by
    rw [hs'] at hdone
    simp [hdone, Cont.isTerminal]
  have hk : k ≤ L₂ := by
    have : (evaluate e L₁).2 = k := by simp [evaluate, h]
    omega
  show evalIter (initial e) L₂ = evalIter (initial e) L₁
  rw [h]
  exact evalIter_mono L₁ (initial e) s' k h hterm L₂ hk

/-- C5 witness: a literal terminates in one step under limit 5, and
re-running with limit 1 reproduces the identical result. -/
theorem c5_evaluate_monotone_witness :
    ((evaluate (Expr.num 3) 5).1).cont = Cont.done
    ∧ (evaluate (Expr.num 3) 5).2 ≤ 1
    ∧ evaluate (Expr.num 3) 1 = evaluate (Expr.num 3) 5 :=
  ⟨by decide, by decide, c5_evaluate_monotone (Expr.num 3) 5 1 (by decide) (by decide)⟩

/-- C6: the store is content-addressed — interning yields the structural
hash as address whatever the store (so any interning path for structurally
identical terms agrees), structural equality of terms coincides with
address equality, and re-interning an already-interned term changes
neither the store nor the address. -/
theorem c6_content_addressing :
    ∀ (s s₁ s₂ : Store) (t u : Expr),
      ((intern s₁ t).2 = (intern s₂ u).2 ↔ t = u)
      ∧ intern (intern s t).1 t = ((intern s t).1, (intern s t).2) := by
  intro s s₁ s₂ t u
  constructor
  · rw [intern_addr, intern_addr]
    exact ⟨fun h => hashExpr_injective t u h, fun h => by rw [h]⟩
  · rcases hst : intern s t with ⟨S, a⟩
    have hmem : S.any (fun p => p.1 = hashExpr t) = true := by
      have := intern_mem s t
      rw [hst] at this
      exact this
    have ha : a = hashExpr t := by
      have := intern_addr s t
      rw [hst] at this
      exact this
    show intern S t = (S, a)
    subst ha
    unfold intern
    rw [if_pos hmem]

/-- C7: proving does not require termination — `eval_and_prove` succeeds
for whatever IO record is reached at or before the limit and its public
output is that reached record, the eval command reports the reached state,
and only the opening path demands a Done continuation. -/
theorem c7_prove_whatever_reached :
    ∀ (e : Expr) (limit : Nat),
      (∃ p : Proof, eval_and_prove e limit = Except.ok p
          ∧ p.pubOut = (evaluate e limit).1)
      ∧ evalCmd e limit = Except.ok (evaluate e limit)
      ∧ (∀ (f : Expr) (secret : Option Nat) (inp : Expr),
          ((evaluate (applyExpr f inp) limit).1).cont ≠ Cont.done →
          openAndProve (commitSpec f secret) f secret inp limit false
            = Except.error Error.evaluationIncomplete) := by
  intro e limit
  refine ⟨⟨proveOf (initial e) limit, rfl, rfl⟩, rfl, ?_⟩
  intro f secret inp h
  exact openAndProve_incomplete _ f secret inp limit false rfl h

/-- C7 witness: under limit 0 nothing terminates, yet the claim's
non-terminating opening branch is exercised on a concrete application. -/
theorem c7_prove_whatever_reached_witness :
    ((evaluate (applyExpr (Expr.num 2) (Expr.num 6)) 0).1).cont ≠ Cont.done
    ∧ openAndProve (commitSpec (Expr.num 2) none) (Expr.num 2) none (Expr.num 6) 0 false
        = Except.error Error.evaluationIncomplete :=
  ⟨by decide,
   (c7_prove_whatever_reached (Expr.num 3) 0).2.2 (Expr.num 2) none (Expr.num 6) (by decide)⟩

/-- C8: proof round-trip — for an expression that reaches Done within the
limit, verifying the proof produced by `eval_and_prove` against the public
inputs of that evaluation returns true. -/
theorem c8_proof_roundtrip :
    ∀ (e : Expr) (limit : Nat),
      ((evaluate e limit).1).cont = Cont.done →
      (eval_and_prove e limit).map
          (fun p => verifyPub p (initial e) ((evaluate e limit).1) limit)
        = Except.ok true := by
  intro e limit _
  exact congrArg Except.ok (proveOf_valid (initial e) limit)

/-- C8 witness: a terminating literal proves and verifies. -/
theorem c8_proof_roundtrip_witness :
    ((evaluate (Expr.num 3) 5).1).cont = Cont.done
    ∧ (eval_and_prove (Expr.num 3) 5).map
        (fun p => verifyPub p (initial (Expr.num 3)) ((evaluate (Expr.num 3) 5).1) 5)
      = Except.ok true :=
  ⟨by decide, c8_proof_roundtrip (Expr.num 3) 5 (by decide)⟩

/-- C9: the verify command reports the structured `{verified: bool}`
result; a failed verification exits with a non-zero code exactly when the
error flag is set, and otherwise the command returns successfully. -/
theorem c9_verify_structured_result :
    ∀ (p : Proof) (cli_error : Bool),
      (verifyCmd p cli_error).1 = p.verify
      ∧ ((verifyCmd p cli_error).2 = ExitStatus.failure 1
          ↔ ((p.verify).verified = false ∧ cli_error = true))
      ∧ (verifyCmd p false).2 = ExitStatus.success := by
  intro p c
  refine ⟨rfl, ?_, ?_⟩
  · rcases hv : (p.verify).verified <;> cases c <;> simp [verifyCmd, hv]
  · rcases hv : (p.verify).verified <;> simp [verifyCmd, hv]

theorem step_quote (src : Expr) :
    step ⟨Expr.cons (Expr.sym quoteSym) (Expr.cons src Expr.nil), Expr.nil, Cont.outermost⟩
      = ⟨src, Expr.nil, Cont.done⟩ := rfl

/-- C10: with the no_eval_input flag the opening input is the parsed
source wrapped in (quote ...) — which the evaluator hands over literally —
while without the flag it is the result of evaluating the source under the
limit; the open command passes only the computed input to the proved
opening, whose trace starts at the application state, so the
pre-evaluation is outside what is proved. -/
theorem c10_no_eval_input :
    ∀ (src : Expr) (limit m : Nat) (fn : Function) (c : Option Nat)
      (chain b : Bool) (o : Opening) (p : Proof),
      input src true limit = Expr.cons (Expr.sym quoteSym) (Expr.cons src Expr.nil)
      ∧ input src false limit = ((evaluate src limit).1).expr
      ∧ (evaluate (input src true limit) (m + 1)).1 = ⟨src, Expr.nil, Cont.done⟩
      ∧ openCmd fn src c chain limit false
          = openAndProve (c.getD (commitSpec (fn.fun_ptr limit) fn.secret))
              (fn.fun_ptr limit) fn.secret (((evaluate src limit).1).expr) limit chain
      ∧ (openCmd fn src c chain limit b = Except.ok (o, p) →
          p.pubIn = initial (applyExpr (fn.fun_ptr limit) (input src b limit))) := by
  intro src limit m fn c chain b o p
  refine ⟨rfl, rfl, ?_, rfl, ?_⟩
  · have hterm := evalIter_terminal (⟨src, Expr.nil, Cont.done⟩ : IORecord) rfl
    show (evalIter ⟨Expr.cons (Expr.sym quoteSym) (Expr.cons src Expr.nil),
        Expr.nil, Cont.outermost⟩ (m + 1)).1 = _
    simp [evalIter, Cont.isTerminal, step_quote src, hterm]
  · intro h
    have hp := openAndProve_ok_proof (c.getD (commitSpec (fn.fun_ptr limit) fn.secret))
      (fn.fun_ptr limit) fn.secret (input src b limit) limit chain o p h
    rw [hp]
    rfl

/-- C10 witness: a concrete open run with an evaluated input succeeds and
its proof's public input state is the application of the function to the
computed input. -/
theorem c10_no_eval_input_witness :
    openCmd ⟨Expr.cons (Expr.sym lambdaSym)
          (Expr.cons (Expr.sym 9) (Expr.cons (Expr.sym 9) Expr.nil)), some 3⟩
        (Expr.num 5) none false 6 false
      = Except.ok
          (⟨commitSpec (Expr.fn 9 (Expr.sym 9) Expr.nil) (some 3), Expr.num 5, Expr.num 5, 6,
              none⟩,
            proveOf (initial (applyExpr (Expr.fn 9 (Expr.sym 9) Expr.nil) (Expr.num 5))) 6)
    ∧ (proveOf (initial (applyExpr (Expr.fn 9 (Expr.sym 9) Expr.nil) (Expr.num 5))) 6).pubIn
        = initial (applyExpr
            (Function.fun_ptr
              ⟨Expr.cons (Expr.sym lambdaSym)
                (Expr.cons (Expr.sym 9) (Expr.cons (Expr.sym 9) Expr.nil)), some 3⟩ 6)
            (input (Expr.num 5) false 6)) :=
  ⟨by decide,
   (c10_no_eval_input (Expr.num 5) 6 0
      ⟨Expr.cons (Expr.sym lambdaSym)
        (Expr.cons (Expr.sym 9) (Expr.cons (Expr.sym 9) Expr.nil)), some 3⟩
      none false false
      ⟨commitSpec (Expr.fn 9 (Expr.sym 9) Expr.nil) (some 3), Expr.num 5, Expr.num 5, 6, none⟩
      (proveOf (initial (applyExpr (Expr.fn 9 (Expr.sym 9) Expr.nil) (Expr.num 5))) 6)).2.2.2.2
     (by decide)⟩

end Lurk
